import Mathlib

/-!
Shallow embedding of the `SoftDeleteManager` class from
`src/utils/soft-delete.ts` (hamsoya-backend).

Modelling conventions:
* Time is `Millis : Nat` (milliseconds since epoch); `Date.now()` and the
  `new Date()` captured inside a call are a single explicit `now` parameter
  (no time passes inside one synchronous step of the manager).
* A thrown JavaScript error is `JsError`: either a structured `AppError`
  (message + HTTP status code) or any other error (`other`), mirroring the
  `error instanceof AppError` test in the source.
* A caller-supplied async operation (`deleteOperation`, an entry of
  `atomicOperations` / `rollbackOperations`, `restoreOperation`, ...) is a
  record carrying an identity `id : Nat` and its outcome
  (`Except JsError _`).  Invoking an operation appends its `id` to an
  execution trace carried in the manager state, so ordering claims are
  statements about that trace.
* The process-wide `undoTokens : Map<string, ...>` is an association list
  with JavaScript-`Map` semantics: `set` replaces the entry of an existing
  key in place, `get` returns the first (unique) match, `delete` removes the
  entry of that key.
* `setTimeout(() => undoTokens.delete(token), undoTimeoutMs)` is modelled by
  recording the armed timer `(fireAt, token)` in the state and by `fireTimer`,
  whose body matches the callback body: delete the token from the store.
* The metadata bag is a structure; the single-delete path stores no
  `is_bulk` key, and JavaScript treats the absent key as falsy in
  `!tokenData.metadata.is_bulk`, so absence is encoded as `is_bulk := false`.
-/

abbrev Millis := Nat

/-- Result value of a caller operation (`any` in the source). -/
abbrev Val := Nat

/-- A thrown JavaScript error: a structured `AppError(message, statusCode)`
or any other error value. -/
inductive JsError where
  | appError (message : String) (statusCode : Nat)
  | other (id : Nat)
deriving DecidableEq, Repr

/-- `error instanceof AppError`. -/
def JsError.isApp : JsError → Bool
  | .appError _ _ => true
  | .other _ => false

/-- A side-effecting `() => Promise<void>` operation: an identity recorded in
the execution trace when invoked, and its outcome. -/
structure Op where
  id : Nat
  result : Except JsError Unit

/-- A value-returning async operation (`deleteOperation`,
`bulkDeleteOperation`, `restoreOperation`, `bulkRestoreOperation`). -/
structure VOp where
  id : Nat
  result : Except JsError Val

/-- `op.result` is a fulfilled promise (the operation does not throw). -/
def opOk (op : Op) : Bool :=
  match op.result with
  | .ok _ => true
  | .error _ => false

/-- Metadata bag stored with an undo token (`metadata` in the source).
The single path sets `entity_id` and leaves `is_bulk` absent (falsy, encoded
`false`); the bulk path sets `entity_ids` and `is_bulk = true`. -/
structure Metadata where
  entity_type : String
  entity_id : Option String
  entity_ids : Option (List String)
  deleted_at : Millis
  main_result : Val
  is_bulk : Bool

/-- One entry of the `undoTokens` map. -/
structure TokenData where
  expires_at : Millis
  rollback_operations : List Op
  metadata : Metadata

/-- The `undoTokens` map: association list with unique keys. -/
abbrev TokenStore := List (String × TokenData)

/-- `undoTokens.get(k)`. -/
def storeGet (s : TokenStore) (k : String) : Option TokenData :=
  match s with
  | [] => none
  | p :: rest => if p.1 = k then some p.2 else storeGet rest k

/-- `undoTokens.set(k, v)`: replace the entry of an existing key, else append. -/
def storeSet (s : TokenStore) (k : String) (v : TokenData) : TokenStore :=
  match s with
  | [] => [(k, v)]
  | p :: rest => if p.1 = k then (k, v) :: rest else p :: storeSet rest k v

/-- `undoTokens.delete(k)`. -/
def storeDelete (s : TokenStore) (k : String) : TokenStore :=
  match s with
  | [] => []
  | p :: rest => if p.1 = k then storeDelete rest k else p :: storeDelete rest k

/-- Manager state threaded through the embedded methods: the token store,
the execution trace of caller operations invoked so far (their `id`s in
invocation order), and the timers armed by `setTimeout`. -/
structure MState where
  store : TokenStore
  trace : List Nat
  timers : List (Millis × String)

/-- `SoftDeleteOptions` (the source defaults are `undoTimeoutMs = 5000`,
`includeUndoToken = true`, empty operation lists; see `defaultOptions`). -/
structure SoftDeleteOptions where
  undoTimeoutMs : Millis
  includeUndoToken : Bool
  atomicOperations : List Op
  rollbackOperations : List Op

/-- The defaults applied when `options` is omitted. -/
def defaultOptions : SoftDeleteOptions :=
  { undoTimeoutMs := 5000
    includeUndoToken := true
    atomicOperations := []
    rollbackOperations := [] }

/-- `SoftDeleteResult` (the informational `metadata` field of the response is
not modelled; no claim concerns it). -/
structure SoftDeleteResult where
  success : Bool
  message : String
  undo_token : Option String
  undo_expires_at : Option Millis

/-- `UndoDeleteResult`. -/
structure UndoDeleteResult where
  success : Bool
  message : String
  restored_item : Option Val

/-- `generateUndoToken`: the `Math.random()` suffix is an explicit
parameter. -/
def generateUndoToken (entityType entityId : String) (timestamp : Millis)
    (random : String) : String :=
  "undo_" ++ entityType ++ "_" ++ entityId ++ "_" ++ toString timestamp
    ++ "_" ++ random

/-- Run a list of operations in order, appending the id of each invoked operation
to the trace, stopping at (and returning) the first thrown error.  This is the
`for (const op of ops) await op()` loop. -/
def runOps (ops : List Op) (tr : List Nat) : List Nat × Option JsError :=
  match ops with
  | [] => (tr, none)
  | op :: rest =>
    match op.result with
    | .ok _ => runOps rest (tr ++ [op.id])
    | .error e => (tr ++ [op.id], some e)

/-- The catch-block policy of the delete paths: a structured `AppError`
re-throws unchanged, anything else is wrapped. -/
def wrapDeleteError (entityType : String) (e : JsError) : JsError :=
  match e with
  | .appError m s => .appError m s
  | .other _ => .appError ("Failed to delete " ++ entityType) 500

/-- Same policy for `executeBulkSoftDelete` (pluralised message). -/
def wrapBulkDeleteError (entityType : String) (e : JsError) : JsError :=
  match e with
  | .appError m s => .appError m s
  | .other _ => .appError ("Failed to delete " ++ entityType ++ "s") 500

/-- Catch-block policy of `executeUndo`. -/
def wrapRestoreError (e : JsError) : JsError :=
  match e with
  | .appError m s => .appError m s
  | .other _ => .appError "Failed to restore item" 500

/-- Catch-block policy of `executeBulkUndo`. -/
def wrapBulkRestoreError (e : JsError) : JsError :=
  match e with
  | .appError m s => .appError m s
  | .other _ => .appError "Failed to restore items" 500

/-- `SoftDeleteManager.executeSoftDelete`.  `now` is the clock reading of the
call, `random` the `Math.random()` suffix of the minted token. -/
def executeSoftDelete (entityType entityId : String) (deleteOperation : VOp)
    (options : SoftDeleteOptions) (now : Millis) (random : String)
    (st : MState) : Except JsError SoftDeleteResult × MState :=
  match deleteOperation.result with
  | .error e =>
    let tr :=
      (runOps options.rollbackOperations.reverse
        (st.trace ++ [deleteOperation.id])).1
    (.error (wrapDeleteError entityType e), { st with trace := tr })
  | .ok mainResult =>
    match runOps options.atomicOperations (st.trace ++ [deleteOperation.id]) with
    | (tr, some e) =>
      let tr2 := (runOps options.rollbackOperations.reverse tr).1
      (.error (wrapDeleteError entityType e), { st with trace := tr2 })
    | (tr, none) =>
      if options.includeUndoToken then
        let tok := generateUndoToken entityType entityId now random
        let expiresAt := now + options.undoTimeoutMs
        let td : TokenData :=
          { expires_at := expiresAt
            rollback_operations := options.rollbackOperations
            metadata :=
              { entity_type := entityType
                entity_id := some entityId
                entity_ids := none
                deleted_at := now
                main_result := mainResult
                is_bulk := false } }
        (.ok { success := true
               message := entityType ++ " deleted successfully"
               undo_token := some tok
               undo_expires_at := some expiresAt },
         { store := storeSet st.store tok td
           trace := tr
           timers := st.timers ++ [(now + options.undoTimeoutMs, tok)] })
      else
        (.ok { success := true
               message := entityType ++ " deleted successfully"
               undo_token := none
               undo_expires_at := none },
         { st with trace := tr })

/-- `SoftDeleteManager.executeUndo`. -/
def executeUndo (undoToken : String) (restoreOperation : VOp) (now : Millis)
    (st : MState) : Except JsError UndoDeleteResult × MState :=
  match storeGet st.store undoToken with
  | none => (.error (JsError.appError "Invalid or expired undo token" 400), st)
  | some tokenData =>
    if tokenData.expires_at < now then
      (.error (JsError.appError "Undo token has expired" 400),
       { st with store := storeDelete st.store undoToken })
    else
      match restoreOperation.result with
      | .error e =>
        (.error (wrapRestoreError e),
         { st with trace := st.trace ++ [restoreOperation.id] })
      | .ok restoredItem =>
        match runOps tokenData.rollback_operations
            (st.trace ++ [restoreOperation.id]) with
        | (tr, some e) => (.error (wrapRestoreError e), { st with trace := tr })
        | (tr, none) =>
          (.ok { success := true
                 message := tokenData.metadata.entity_type
                   ++ " restored successfully"
                 restored_item := some restoredItem },
           { st with trace := tr, store := storeDelete st.store undoToken })

/-- `SoftDeleteManager.executeBulkSoftDelete`. -/
def executeBulkSoftDelete (entityType : String) (entityIds : List String)
    (bulkDeleteOperation : VOp) (options : SoftDeleteOptions) (now : Millis)
    (random : String) (st : MState) :
    Except JsError SoftDeleteResult × MState :=
  if entityIds.length = 0 then
    (.error (JsError.appError "No entity IDs provided for bulk delete" 400), st)
  else
    match bulkDeleteOperation.result with
    | .error e =>
      let tr :=
        (runOps options.rollbackOperations.reverse
          (st.trace ++ [bulkDeleteOperation.id])).1
      (.error (wrapBulkDeleteError entityType e), { st with trace := tr })
    | .ok mainResult =>
      match runOps options.atomicOperations
          (st.trace ++ [bulkDeleteOperation.id]) with
      | (tr, some e) =>
        let tr2 := (runOps options.rollbackOperations.reverse tr).1
        (.error (wrapBulkDeleteError entityType e), { st with trace := tr2 })
      | (tr, none) =>
        if options.includeUndoToken then
          let tok := generateUndoToken entityType
            ("bulk_" ++ toString entityIds.length) now random
          let expiresAt := now + options.undoTimeoutMs
          let td : TokenData :=
            { expires_at := expiresAt
              rollback_operations := options.rollbackOperations
              metadata :=
                { entity_type := entityType
                  entity_id := none
                  entity_ids := some entityIds
                  deleted_at := now
                  main_result := mainResult
                  is_bulk := true } }
          (.ok { success := true
                 message := toString entityIds.length ++ " " ++ entityType
                   ++ "s deleted successfully"
                 undo_token := some tok
                 undo_expires_at := some expiresAt },
           { store := storeSet st.store tok td
             trace := tr
             timers := st.timers ++ [(now + options.undoTimeoutMs, tok)] })
        else
          (.ok { success := true
                 message := toString entityIds.length ++ " " ++ entityType
                   ++ "s deleted successfully"
                 undo_token := none
                 undo_expires_at := none },
           { st with trace := tr })

/-- `SoftDeleteManager.executeBulkUndo`. -/
def executeBulkUndo (undoToken : String) (bulkRestoreOperation : VOp)
    (now : Millis) (st : MState) : Except JsError UndoDeleteResult × MState :=
  match storeGet st.store undoToken with
  | none => (.error (JsError.appError "Invalid or expired undo token" 400), st)
  | some tokenData =>
    if tokenData.expires_at < now then
      (.error (JsError.appError "Undo token has expired" 400),
       { st with store := storeDelete st.store undoToken })
    else if tokenData.metadata.is_bulk = false then
      (.error (JsError.appError "Token is not for bulk operation" 400), st)
    else
      match bulkRestoreOperation.result with
      | .error e =>
        (.error (wrapBulkRestoreError e),
         { st with trace := st.trace ++ [bulkRestoreOperation.id] })
      | .ok restoredItems =>
        match runOps tokenData.rollback_operations
            (st.trace ++ [bulkRestoreOperation.id]) with
        | (tr, some e) =>
          (.error (wrapBulkRestoreError e), { st with trace := tr })
        | (tr, none) =>
          (.ok { success := true
                 message := toString (tokenData.metadata.entity_ids.getD []).length
                   ++ " " ++ tokenData.metadata.entity_type
                   ++ "s restored successfully"
                 restored_item := some restoredItems },
           { st with trace := tr, store := storeDelete st.store undoToken })

/-- `SoftDeleteManager.isValidUndoToken`. -/
def isValidUndoToken (now : Millis) (s : TokenStore) (undoToken : String) :
    Bool :=
  match storeGet s undoToken with
  | some tokenData => decide (now ≤ tokenData.expires_at)
  | none => false

/-- `SoftDeleteManager.getUndoTokenMetadata`. -/
def getUndoTokenMetadata (s : TokenStore) (undoToken : String) :
    Option Metadata :=
  match storeGet s undoToken with
  | some tokenData => some tokenData.metadata
  | none => none

/-- `SoftDeleteManager.cleanupExpiredTokens`: remove every entry with
`now > expires_at`. -/
def cleanupExpiredTokens (now : Millis) (s : TokenStore) : TokenStore :=
  match s with
  | [] => []
  | p :: rest =>
    if p.2.expires_at < now then cleanupExpiredTokens now rest
    else p :: cleanupExpiredTokens now rest

/-- `SoftDeleteManager.getActiveTokensCount`: cleanup, then report size. -/
def getActiveTokensCount (now : Millis) (s : TokenStore) : Nat :=
  (cleanupExpiredTokens now s).length

/-- Body of the `setTimeout` callback armed at token creation:
`undoTokens.delete(token)`. -/
def fireTimer (st : MState) (tok : String) : MState :=
  { st with store := storeDelete st.store tok }

/-! ### Helper lemmas -/

theorem runOps_all_ok (ops : List Op) (tr : List Nat)
    (h : ∀ op ∈ ops, opOk op = true) :
    runOps ops tr = (tr ++ ops.map Op.id, none) := by
  induction ops generalizing tr with
  | nil => simp [runOps]
  | cons op rest ih =>
    have hop := h op (List.mem_cons_self op rest)
    match hres : op.result with
    | .ok u =>
      have := ih (tr ++ [op.id]) (fun o ho => h o (List.mem_cons_of_mem _ ho))
      simp [runOps, hres, this]
    | .error e =>
      exfalso
      simp [opOk, hres] at hop

theorem runOps_fails_at (pre : List Op) (bad : Op) (post : List Op)
    (tr : List Nat) (e : JsError)
    (hpre : ∀ op ∈ pre, opOk op = true) (hbad : bad.result = .error e) :
    runOps (pre ++ bad :: post) tr = (tr ++ pre.map Op.id ++ [bad.id], some e) := by
  induction pre generalizing tr with
  | nil => simp [runOps, hbad]
  | cons op rest ih =>
    have hop := hpre op (List.mem_cons_self op rest)
    match hres : op.result with
    | .ok u =>
      have := ih (tr ++ [op.id]) (fun o ho => hpre o (List.mem_cons_of_mem _ ho))
      simp [runOps, hres, this]
    | .error e2 =>
      exfalso
      simp [opOk, hres] at hop

theorem runOps_trace_extends (ops : List Op) (tr : List Nat) :
    ∃ ext, (runOps ops tr).1 = tr ++ ext := by
  induction ops generalizing tr with
  | nil => exact ⟨[], by simp [runOps]⟩
  | cons op rest ih =>
    match hres : op.result with
    | .ok u =>
      obtain ⟨ext, he⟩ := ih (tr ++ [op.id])
      exact ⟨op.id :: ext, by simp [runOps, hres, he]⟩
    | .error e => exact ⟨[op.id], by simp [runOps, hres]⟩

theorem storeGet_set_self (s : TokenStore) (k : String) (v : TokenData) :
    storeGet (storeSet s k v) k = some v := by
  induction s with
  | nil => simp [storeSet, storeGet]
  | cons p rest ih =>
    by_cases h : p.1 = k
    · simp [storeSet, h, storeGet]
    · simp [storeSet, h, storeGet, ih]

theorem storeGet_delete_self (s : TokenStore) (k : String) :
    storeGet (storeDelete s k) k = none := by
  induction s with
  | nil => simp [storeDelete, storeGet]
  | cons p rest ih =>
    by_cases h : p.1 = k
    · simp [storeDelete, h, ih]
    · simp [storeDelete, h, storeGet, ih]

theorem storeGet_none_cons (p : String × TokenData) (rest : TokenStore)
    (k : String) (h : storeGet (p :: rest) k = none) :
    p.1 ≠ k ∧ storeGet rest k = none := by
  by_cases hp : p.1 = k
  · simp [storeGet, hp] at h
  · refine ⟨hp, ?_⟩
    simpa [storeGet, hp] using h

theorem storeGet_cleanup_kept (s : TokenStore) (k : String) (td : TokenData)
    (t : Millis) (hget : storeGet s k = some td)
    (hexp : ¬ td.expires_at < t) :
    storeGet (cleanupExpiredTokens t s) k = some td := by
  induction s with
  | nil => simp [storeGet] at hget
  | cons p rest ih =>
    by_cases h : p.1 = k
    · have hpd : p.2 = td := by simpa [storeGet, h] using hget
      subst hpd
      simp [cleanupExpiredTokens, hexp, storeGet, h]
    · have hrest : storeGet rest k = some td := by simpa [storeGet, h] using hget
      by_cases hdrop : p.2.expires_at < t
      · simp [cleanupExpiredTokens, hdrop, ih hrest]
      · simp [cleanupExpiredTokens, hdrop, storeGet, h, ih hrest]

theorem cleanup_removes (s : TokenStore) (k : String) (td : TokenData)
    (t : Millis) (hfresh : storeGet s k = none) (hexp : td.expires_at < t) :
    storeGet (cleanupExpiredTokens t (storeSet s k td)) k = none := by
  induction s with
  | nil => simp [storeSet, cleanupExpiredTokens, hexp, storeGet]
  | cons p rest ih =>
    obtain ⟨hp, hrest⟩ := storeGet_none_cons p rest k hfresh
    have hset : storeSet (p :: rest) k td = p :: storeSet rest k td := by
      simp [storeSet, hp]
    rw [hset]
    by_cases hdrop : p.2.expires_at < t
    · simp [cleanupExpiredTokens, hdrop, ih hrest]
    · simp [cleanupExpiredTokens, hdrop, storeGet, hp, ih hrest]

theorem executeUndo_restore_invoked (tok : String) (r : VOp) (now : Millis)
    (st : MState) (td : TokenData) (hget : storeGet st.store tok = some td)
    (hexp : ¬ td.expires_at < now) :
    ∃ rest, (executeUndo tok r now st).2.trace = st.trace ++ r.id :: rest := by
  unfold executeUndo
  rw [hget]
  simp only [hexp, if_false]
  match hres : r.result with
  | .error e => exact ⟨[], by simp⟩
  | .ok v =>
    obtain ⟨ext, he⟩ := runOps_trace_extends td.rollback_operations
      (st.trace ++ [r.id])
    match hrun : runOps td.rollback_operations (st.trace ++ [r.id]) with
    | (tr, some e) =>
      refine ⟨ext, ?_⟩
      simp only []
      have : tr = st.trace ++ r.id :: ext := by
        have := he
        rw [hrun] at this
        simpa using this
      simp [this]
    | (tr, none) =>
      refine ⟨ext, ?_⟩
      have : tr = st.trace ++ r.id :: ext := by
        have := he
        rw [hrun] at this
        simpa using this
      simp [this]

/-! ### Path-evaluation lemmas for the four main operations -/

theorem executeSoftDelete_success (entityType entityId : String) (dOp : VOp)
    (opts : SoftDeleteOptions) (now : Millis) (random : String) (st : MState)
    (res : Val) (hd : dOp.result = .ok res) (hinc : opts.includeUndoToken = true)
    (hatom : ∀ op ∈ opts.atomicOperations, opOk op = true) :
    executeSoftDelete entityType entityId dOp opts now random st =
      (.ok { success := true
             message := entityType ++ " deleted successfully"
             undo_token := some (generateUndoToken entityType entityId now random)
             undo_expires_at := some (now + opts.undoTimeoutMs) },
       { store := storeSet st.store (generateUndoToken entityType entityId now random)
           { expires_at := now + opts.undoTimeoutMs
             rollback_operations := opts.rollbackOperations
             metadata :=
               { entity_type := entityType
                 entity_id := some entityId
                 entity_ids := none
                 deleted_at := now
                 main_result := res
                 is_bulk := false } }
         trace := st.trace ++ dOp.id :: opts.atomicOperations.map Op.id
         timers := st.timers ++ [(now + opts.undoTimeoutMs,
           generateUndoToken entityType entityId now random)] }) := by
  unfold executeSoftDelete
  rw [hd, runOps_all_ok _ _ hatom]
  simp [hinc]

theorem executeSoftDelete_deleteFail (entityType entityId : String) (dOp : VOp)
    (opts : SoftDeleteOptions) (now : Millis) (random : String) (st : MState)
    (e : JsError) (he : dOp.result = .error e) :
    executeSoftDelete entityType entityId dOp opts now random st =
      (.error (wrapDeleteError entityType e),
       { st with trace := (runOps opts.rollbackOperations.reverse
           (st.trace ++ [dOp.id])).1 }) := by
  unfold executeSoftDelete
  rw [he]

theorem executeSoftDelete_atomicFail (entityType entityId : String) (dOp : VOp)
    (opts : SoftDeleteOptions) (now : Millis) (random : String) (st : MState)
    (res : Val) (pre : List Op) (bad : Op) (post : List Op) (e : JsError)
    (hd : dOp.result = .ok res)
    (hsplit : opts.atomicOperations = pre ++ bad :: post)
    (hpre : ∀ op ∈ pre, opOk op = true) (hbad : bad.result = .error e) :
    executeSoftDelete entityType entityId dOp opts now random st =
      (.error (wrapDeleteError entityType e),
       { st with trace := (runOps opts.rollbackOperations.reverse
           (st.trace ++ [dOp.id] ++ pre.map Op.id ++ [bad.id])).1 }) := by
  unfold executeSoftDelete
  rw [hd, hsplit, runOps_fails_at pre bad post _ e hpre hbad]

theorem executeUndo_absent (tok : String) (r : VOp) (now : Millis) (st : MState)
    (h : storeGet st.store tok = none) :
    executeUndo tok r now st =
      (.error (JsError.appError "Invalid or expired undo token" 400), st) := by
  unfold executeUndo
  rw [h]

theorem executeUndo_expired_removes (tok : String) (r : VOp) (now : Millis)
    (st : MState) (td : TokenData) (hget : storeGet st.store tok = some td)
    (hexp : td.expires_at < now) :
    executeUndo tok r now st =
      (.error (JsError.appError "Undo token has expired" 400),
       { st with store := storeDelete st.store tok }) := by
  unfold executeUndo
  rw [hget]
  simp [hexp]

theorem executeUndo_success (tok : String) (r : VOp) (now : Millis) (st : MState)
    (td : TokenData) (v : Val) (hget : storeGet st.store tok = some td)
    (hexp : ¬ td.expires_at < now) (hr : r.result = .ok v)
    (hroll : ∀ op ∈ td.rollback_operations, opOk op = true) :
    executeUndo tok r now st =
      (.ok { success := true
             message := td.metadata.entity_type ++ " restored successfully"
             restored_item := some v },
       { st with store := storeDelete st.store tok
                 trace := st.trace ++ r.id :: td.rollback_operations.map Op.id }) := by
  unfold executeUndo
  rw [hget]
  simp only [hexp, if_false]
  rw [hr, runOps_all_ok _ _ hroll]
  simp

theorem executeUndo_restoreFail (tok : String) (r : VOp) (now : Millis)
    (st : MState) (td : TokenData) (e : JsError)
    (hget : storeGet st.store tok = some td) (hexp : ¬ td.expires_at < now)
    (hr : r.result = .error e) :
    executeUndo tok r now st =
      (.error (wrapRestoreError e),
       { st with trace := st.trace ++ [r.id] }) := by
  unfold executeUndo
  rw [hget]
  simp only [hexp, if_false]
  rw [hr]

theorem executeUndo_rollbackFail (tok : String) (r : VOp) (now : Millis)
    (st : MState) (td : TokenData) (v : Val) (pr : List Op) (bad : Op)
    (post : List Op) (e : JsError)
    (hget : storeGet st.store tok = some td) (hexp : ¬ td.expires_at < now)
    (hr : r.result = .ok v)
    (hsplit : td.rollback_operations = pr ++ bad :: post)
    (hpr : ∀ op ∈ pr, opOk op = true) (hbad : bad.result = .error e) :
    executeUndo tok r now st =
      (.error (wrapRestoreError e),
       { st with trace := st.trace ++ [r.id] ++ pr.map Op.id ++ [bad.id] }) := by
  unfold executeUndo
  rw [hget]
  simp only [hexp, if_false]
  rw [hr, hsplit, runOps_fails_at pr bad post _ e hpr hbad]

theorem executeBulkSoftDelete_success (entityType : String)
    (entityIds : List String) (dOp : VOp) (opts : SoftDeleteOptions)
    (now : Millis) (random : String) (st : MState) (res : Val)
    (hids : entityIds ≠ []) (hd : dOp.result = .ok res)
    (hinc : opts.includeUndoToken = true)
    (hatom : ∀ op ∈ opts.atomicOperations, opOk op = true) :
    executeBulkSoftDelete entityType entityIds dOp opts now random st =
      (.ok { success := true
             message := toString entityIds.length ++ " " ++ entityType
               ++ "s deleted successfully"
             undo_token := some (generateUndoToken entityType
               ("bulk_" ++ toString entityIds.length) now random)
             undo_expires_at := some (now + opts.undoTimeoutMs) },
       { store := storeSet st.store
           (generateUndoToken entityType
             ("bulk_" ++ toString entityIds.length) now random)
           { expires_at := now + opts.undoTimeoutMs
             rollback_operations := opts.rollbackOperations
             metadata :=
               { entity_type := entityType
                 entity_id := none
                 entity_ids := some entityIds
                 deleted_at := now
                 main_result := res
                 is_bulk := true } }
         trace := st.trace ++ dOp.id :: opts.atomicOperations.map Op.id
         timers := st.timers ++ [(now + opts.undoTimeoutMs,
           generateUndoToken entityType
             ("bulk_" ++ toString entityIds.length) now random)] }) := by
  unfold executeBulkSoftDelete
  have hlen : ¬ entityIds.length = 0 := by
    simpa [List.length_eq_zero] using hids
  rw [if_neg hlen, hd, runOps_all_ok _ _ hatom]
  simp [hinc]

theorem executeBulkUndo_notBulk (tok : String) (r : VOp) (now : Millis)
    (st : MState) (td : TokenData) (hget : storeGet st.store tok = some td)
    (hexp : ¬ td.expires_at < now) (hb : td.metadata.is_bulk = false) :
    executeBulkUndo tok r now st =
      (.error (JsError.appError "Token is not for bulk operation" 400), st) := by
  unfold executeBulkUndo
  rw [hget]
  simp [hexp, hb]

theorem executeBulkUndo_success (tok : String) (r : VOp) (now : Millis)
    (st : MState) (td : TokenData) (v : Val)
    (hget : storeGet st.store tok = some td) (hexp : ¬ td.expires_at < now)
    (hb : td.metadata.is_bulk = true) (hr : r.result = .ok v)
    (hroll : ∀ op ∈ td.rollback_operations, opOk op = true) :
    executeBulkUndo tok r now st =
      (.ok { success := true
             message := toString (td.metadata.entity_ids.getD []).length
               ++ " " ++ td.metadata.entity_type ++ "s restored successfully"
             restored_item := some v },
       { st with store := storeDelete st.store tok
                 trace := st.trace ++ r.id :: td.rollback_operations.map Op.id }) := by
  unfold executeBulkUndo
  rw [hget]
  simp only [hexp, if_false, hb]
  rw [hr, runOps_all_ok _ _ hroll]
  simp

theorem executeBulkUndo_restore_invoked (tok : String) (r : VOp) (now : Millis)
    (st : MState) (td : TokenData) (hget : storeGet st.store tok = some td)
    (hexp : ¬ td.expires_at < now) (hb : td.metadata.is_bulk = true) :
    ∃ rest, (executeBulkUndo tok r now st).2.trace
      = st.trace ++ r.id :: rest := by
  unfold executeBulkUndo
  rw [hget]
  simp only [hexp, if_false, hb]
  match hres : r.result with
  | .error e => exact ⟨[], by simp⟩
  | .ok v =>
    obtain ⟨ext, he⟩ := runOps_trace_extends td.rollback_operations
      (st.trace ++ [r.id])
    match hrun : runOps td.rollback_operations (st.trace ++ [r.id]) with
    | (tr, some e) =>
      refine ⟨ext, ?_⟩
      have : tr = st.trace ++ r.id :: ext := by
        have h2 := he
        rw [hrun] at h2
        simpa using h2
      simp [this]
    | (tr, none) =>
      refine ⟨ext, ?_⟩
      have : tr = st.trace ++ r.id :: ext := by
        have h2 := he
        rw [hrun] at h2
        simpa using h2
      simp [this]

/-! ### Concrete fixtures used by witnesses and counterexamples -/

/-- A succeeding side-effect operation. -/
def okOp (i : Nat) : Op := { id := i, result := .ok () }

/-- A throwing side-effect operation (non-`AppError` error). -/
def badOp (i : Nat) : Op := { id := i, result := .error (.other i) }

/-- A succeeding value-returning operation. -/
def okVOp (i : Nat) (v : Val) : VOp := { id := i, result := .ok v }

/-- A throwing value-returning operation (non-`AppError` error). -/
def badVOp (i : Nat) : VOp := { id := i, result := .error (.other i) }

/-- The pristine manager state. -/
def st0 : MState := { store := [], trace := [], timers := [] }

/-- Metadata of a token minted by the single-delete path. -/
def mdSingle : Metadata :=
  { entity_type := "product"
    entity_id := some "p1"
    entity_ids := none
    deleted_at := 0
    main_result := 0
    is_bulk := false }

/-- Metadata of a token minted by the bulk-delete path. -/
def mdBulk : Metadata :=
  { entity_type := "product"
    entity_id := none
    entity_ids := some ["a", "b"]
    deleted_at := 0
    main_result := 0
    is_bulk := true }

/-! ### C6 -/

/-- C6: `executeBulkSoftDelete` called with an empty `entityIds` list fails as
a 400 validation fault with the state returned unchanged: the trace is
untouched (neither `bulkDeleteOperation` nor any atomic or rollback operation
is invoked), the token store is untouched, and no timer is armed. -/
theorem bulkSoftDelete_empty_ids_rejected (entityType : String) (bulkOp : VOp)
    (options : SoftDeleteOptions) (now : Millis) (random : String)
    (st : MState) :
    executeBulkSoftDelete entityType [] bulkOp options now random st =
      (.error (JsError.appError "No entity IDs provided for bulk delete" 400),
       st) := by
  rfl

/-! ### C8 -/

/-- C8: `getActiveTokensCount` runs the cleanup scan and then reports the
remaining size, and the cleaned store contains no entry whose `expiresAt` has
passed — so the count never includes such a token, timer fired or not. -/
theorem activeTokensCount_excludes_expired (now : Millis) (s : TokenStore) :
    getActiveTokensCount now s = (cleanupExpiredTokens now s).length ∧
    (∀ k td, storeGet (cleanupExpiredTokens now s) k = some td →
       ¬ td.expires_at < now) := by
  refine ⟨rfl, ?_⟩
  intro k td
  induction s with
  | nil =>
    intro h
    simp [cleanupExpiredTokens, storeGet] at h
  | cons p rest ih =>
    intro h
    by_cases hdrop : p.2.expires_at < now
    · rw [show cleanupExpiredTokens now (p :: rest)
          = cleanupExpiredTokens now rest by simp [cleanupExpiredTokens, hdrop]]
        at h
      exact ih h
    · by_cases hk : p.1 = k
      · have hpd : p.2 = td := by
          simpa [cleanupExpiredTokens, hdrop, storeGet, hk] using h
        rw [← hpd]
        exact hdrop
      · have hrest : storeGet (cleanupExpiredTokens now rest) k = some td := by
          simpa [cleanupExpiredTokens, hdrop, storeGet, hk] using h
        exact ih hrest

/-- A live token entry (expiry 10). -/
def tdLive : TokenData :=
  { expires_at := 10, rollback_operations := [], metadata := mdSingle }

/-- A stale token entry (expiry 3). -/
def tdStale : TokenData :=
  { expires_at := 3, rollback_operations := [], metadata := mdSingle }

/-- A store holding one live and one stale token. -/
def mixedStore : TokenStore := [("live", tdLive), ("stale", tdStale)]

theorem activeTokensCount_excludes_expired_witness :
    getActiveTokensCount 5 mixedStore = (cleanupExpiredTokens 5 mixedStore).length ∧
    ¬ tdLive.expires_at < 5 :=
  ⟨(activeTokensCount_excludes_expired 5 mixedStore).1,
   (activeTokensCount_excludes_expired 5 mixedStore).2 "live" tdLive rfl⟩

/-! ### C9 -/

/-- C9: `getUndoTokenMetadata` returns the stored metadata for every token
still in the store, with no expiry check (in particular for a token whose
`expiresAt` has passed), and returns `none` only for a token not in the
store; an expired-but-unswept token thus reads as invalid via
`isValidUndoToken` while its metadata remains retrievable.  (Both queries are
pure functions of the store in this embedding: neither removes anything.) -/
theorem tokenMetadata_ignores_expiry (s : TokenStore) (tok : String)
    (now : Millis) :
    (∀ td, storeGet s tok = some td →
       getUndoTokenMetadata s tok = some td.metadata) ∧
    (storeGet s tok = none → getUndoTokenMetadata s tok = none) ∧
    (∀ td, storeGet s tok = some td → td.expires_at < now →
       isValidUndoToken now s tok = false ∧
       getUndoTokenMetadata s tok = some td.metadata) := by
  refine ⟨?_, ?_, ?_⟩
  · intro td h
    simp [getUndoTokenMetadata, h]
  · intro h
    simp [getUndoTokenMetadata, h]
  · intro td h hexp
    constructor
    · simp only [isValidUndoToken, h]
      exact decide_eq_false (not_le.mpr hexp)
    · simp [getUndoTokenMetadata, h]

theorem tokenMetadata_ignores_expiry_witness :
    getUndoTokenMetadata mixedStore "stale" = some tdStale.metadata ∧
    isValidUndoToken 5 mixedStore "stale" = false ∧
    getUndoTokenMetadata mixedStore "gone" = none :=
  ⟨(tokenMetadata_ignores_expiry mixedStore "stale" 5).1 tdStale rfl,
   ((tokenMetadata_ignores_expiry mixedStore "stale" 5).2.2 tdStale rfl
     (by decide)).1,
   (tokenMetadata_ignores_expiry mixedStore "gone" 5).2.1 rfl⟩

/-! ### C10 -/

/-- C10: at the instant `now = expiresAt` every expiry comparison is strict,
so the token is still live: `isValidUndoToken` is `true`, `executeUndo` and
`executeBulkUndo` proceed past the expiry check and invoke the restore
operation, `cleanupExpiredTokens` keeps the entry, and the token reads as
invalid only strictly after `expiresAt`. -/
theorem boundary_instant_token_live (st : MState) (tok : String)
    (td : TokenData) (r : VOp) (hget : storeGet st.store tok = some td) :
    isValidUndoToken td.expires_at st.store tok = true ∧
    (∃ rest, (executeUndo tok r td.expires_at st).2.trace
       = st.trace ++ r.id :: rest) ∧
    (td.metadata.is_bulk = true →
       ∃ rest, (executeBulkUndo tok r td.expires_at st).2.trace
         = st.trace ++ r.id :: rest) ∧
    storeGet (cleanupExpiredTokens td.expires_at st.store) tok = some td ∧
    (∀ t, td.expires_at < t → isValidUndoToken t st.store tok = false) := by
  refine ⟨?_, ?_, ?_, ?_, ?_⟩
  · simp [isValidUndoToken, hget]
  · exact executeUndo_restore_invoked tok r td.expires_at st td hget
      (Nat.lt_irrefl _)
  · intro hb
    exact executeBulkUndo_restore_invoked tok r td.expires_at st td hget
      (Nat.lt_irrefl _) hb
  · exact storeGet_cleanup_kept st.store tok td td.expires_at hget
      (Nat.lt_irrefl _)
  · intro t ht
    simp only [isValidUndoToken, hget]
    exact decide_eq_false (not_le.mpr ht)

/-- A bulk token entry (expiry 10) with one rollback operation. -/
def tdBulk : TokenData :=
  { expires_at := 10, rollback_operations := [okOp 3], metadata := mdBulk }

/-- A state holding the bulk token under key `"t"`. -/
def stBulk : MState := { store := [("t", tdBulk)], trace := [], timers := [] }

theorem boundary_instant_token_live_witness :
    isValidUndoToken tdBulk.expires_at stBulk.store "t" = true ∧
    (∃ rest, (executeBulkUndo "t" (okVOp 9 1) tdBulk.expires_at stBulk).2.trace
       = stBulk.trace ++ 9 :: rest) ∧
    storeGet (cleanupExpiredTokens tdBulk.expires_at stBulk.store) "t"
      = some tdBulk ∧
    isValidUndoToken 11 stBulk.store "t" = false := by
  have h := boundary_instant_token_live stBulk "t" tdBulk (okVOp 9 1) rfl
  exact ⟨h.1, h.2.2.1 rfl, h.2.2.2.1, h.2.2.2.2 11 (by decide)⟩

/-! ### C5 -/

/-- C5: an expired token fails `executeUndo` as a 400 client-error fault
regardless of whether the sweep timer has fired: a token absent from the
store fails immediately as invalid-or-expired with the state unchanged; a
token still present but past `expiresAt` is actively removed from the store
and fails likewise; in particular, for the token minted by a successful
single delete, any call strictly after `undo_expires_at` fails this way both
after the self-expiry timer has fired and before it has. -/
theorem undo_after_expiry_fails :
    (∀ tok r t st, storeGet st.store tok = none →
       executeUndo tok r t st =
         (.error (JsError.appError "Invalid or expired undo token" 400), st)) ∧
    (∀ tok r t st td, storeGet st.store tok = some td → td.expires_at < t →
       executeUndo tok r t st =
         (.error (JsError.appError "Undo token has expired" 400),
          { st with store := storeDelete st.store tok })) ∧
    (∀ entityType entityId dOp opts now rnd st res r t,
       dOp.result = .ok res → opts.includeUndoToken = true →
       (∀ op ∈ opts.atomicOperations, opOk op = true) →
       now + opts.undoTimeoutMs < t →
       (executeUndo (generateUndoToken entityType entityId now rnd) r t
           (fireTimer
             (executeSoftDelete entityType entityId dOp opts now rnd st).2
             (generateUndoToken entityType entityId now rnd))).1 =
         .error (JsError.appError "Invalid or expired undo token" 400) ∧
       (executeUndo (generateUndoToken entityType entityId now rnd) r t
           (executeSoftDelete entityType entityId dOp opts now rnd st).2).1 =
         .error (JsError.appError "Undo token has expired" 400) ∧
       storeGet (executeUndo (generateUndoToken entityType entityId now rnd) r t
           (executeSoftDelete entityType entityId dOp opts now rnd st).2).2.store
         (generateUndoToken entityType entityId now rnd) = none) := by
  refine ⟨?_, ?_, ?_⟩
  · intro tok r t st h
    exact executeUndo_absent tok r t st h
  · intro tok r t st td hget hexp
    exact executeUndo_expired_removes tok r t st td hget hexp
  · intro entityType entityId dOp opts now rnd st res r t hd hinc hatom ht
    rw [executeSoftDelete_success entityType entityId dOp opts now rnd st res
      hd hinc hatom]
    have hget := storeGet_set_self st.store
      (generateUndoToken entityType entityId now rnd)
      { expires_at := now + opts.undoTimeoutMs
        rollback_operations := opts.rollbackOperations
        metadata :=
          { entity_type := entityType
            entity_id := some entityId
            entity_ids := none
            deleted_at := now
            main_result := res
            is_bulk := false } }
    refine ⟨?_, ?_, ?_⟩
    · rw [executeUndo_absent _ r t _ (by
        simp only [fireTimer]
        exact storeGet_delete_self _ _)]
    · rw [executeUndo_expired_removes _ r t _ _ hget ht]
    · rw [executeUndo_expired_removes _ r t _ _ hget ht]
      exact storeGet_delete_self _ _

/-- A state whose store holds one live and one stale token. -/
def stMixed : MState := { store := mixedStore, trace := [], timers := [] }

theorem undo_after_expiry_fails_witness :
    executeUndo "gone" (okVOp 1 1) 5 stMixed =
      (.error (JsError.appError "Invalid or expired undo token" 400), stMixed) ∧
    executeUndo "stale" (okVOp 1 1) 5 stMixed =
      (.error (JsError.appError "Undo token has expired" 400),
       { stMixed with store := storeDelete stMixed.store "stale" }) ∧
    (executeUndo (generateUndoToken "product" "p1" 100 "r") (okVOp 2 1) 5200
        (executeSoftDelete "product" "p1" (okVOp 1 7) defaultOptions 100 "r"
          st0).2).1 =
      .error (JsError.appError "Undo token has expired" 400) := by
  have h := undo_after_expiry_fails
  exact ⟨h.1 "gone" (okVOp 1 1) 5 stMixed rfl,
         h.2.1 "stale" (okVOp 1 1) 5 stMixed tdStale rfl (by decide),
         (h.2.2 "product" "p1" (okVOp 1 7) defaultOptions 100 "r" st0 7
           (okVOp 2 1) 5200 rfl rfl (by decide) (by decide)).2.1⟩

/-! ### C2 -/

/-- C2: an undo token is consumed at most once.  A successful
`executeSoftDelete` with `includeUndoToken = true` returns the minted token
and its expiry; the first `executeUndo` with that token at or before the
expiry (with a non-throwing restore operation and non-throwing stored
rollback operations) succeeds and removes the token from the store, so every
subsequent call with the same token — at any time, with any restore
operation — fails as "Invalid or expired undo token"; moreover the scheduled
self-expiry callback (`fireTimer`) and the expiry sweep
(`cleanupExpiredTokens` after the window) each also remove the token. -/
theorem undo_token_consumed_at_most_once
    (entityType entityId rnd : String) (dOp : VOp) (opts : SoftDeleteOptions)
    (now : Millis) (st : MState) (res : Val)
    (hd : dOp.result = .ok res) (hinc : opts.includeUndoToken = true)
    (hatom : ∀ op ∈ opts.atomicOperations, opOk op = true) :
    (executeSoftDelete entityType entityId dOp opts now rnd st).1 =
      .ok { success := true
            message := entityType ++ " deleted successfully"
            undo_token := some (generateUndoToken entityType entityId now rnd)
            undo_expires_at := some (now + opts.undoTimeoutMs) } ∧
    (∀ r t v, ¬ now + opts.undoTimeoutMs < t → r.result = .ok v →
       (∀ op ∈ opts.rollbackOperations, opOk op = true) →
       (executeUndo (generateUndoToken entityType entityId now rnd) r t
           (executeSoftDelete entityType entityId dOp opts now rnd st).2).1 =
         .ok { success := true
               message := entityType ++ " restored successfully"
               restored_item := some v } ∧
       storeGet (executeUndo (generateUndoToken entityType entityId now rnd) r t
           (executeSoftDelete entityType entityId dOp opts now rnd st).2).2.store
         (generateUndoToken entityType entityId now rnd) = none ∧
       (∀ r2 t2,
          (executeUndo (generateUndoToken entityType entityId now rnd) r2 t2
              (executeUndo (generateUndoToken entityType entityId now rnd) r t
                (executeSoftDelete entityType entityId dOp opts now rnd
                  st).2).2).1 =
            .error (JsError.appError "Invalid or expired undo token" 400))) ∧
    storeGet (fireTimer (executeSoftDelete entityType entityId dOp opts now rnd
        st).2 (generateUndoToken entityType entityId now rnd)).store
      (generateUndoToken entityType entityId now rnd) = none ∧
    (∀ t, now + opts.undoTimeoutMs < t →
       storeGet st.store (generateUndoToken entityType entityId now rnd) = none →
       storeGet (cleanupExpiredTokens t
           (executeSoftDelete entityType entityId dOp opts now rnd st).2.store)
         (generateUndoToken entityType entityId now rnd) = none) := by
  rw [executeSoftDelete_success entityType entityId dOp opts now rnd st res
    hd hinc hatom]
  have hget := storeGet_set_self st.store
    (generateUndoToken entityType entityId now rnd)
    { expires_at := now + opts.undoTimeoutMs
      rollback_operations := opts.rollbackOperations
      metadata :=
        { entity_type := entityType
          entity_id := some entityId
          entity_ids := none
          deleted_at := now
          main_result := res
          is_bulk := false } }
  refine ⟨rfl, ?_, ?_, ?_⟩
  · intro r t v ht hr hroll
    rw [executeUndo_success _ r t _ _ v hget ht hr hroll]
    refine ⟨rfl, ?_, ?_⟩
    · exact storeGet_delete_self _ _
    · intro r2 t2
      rw [executeUndo_absent _ r2 t2 _ (storeGet_delete_self _ _)]
  · simp only [fireTimer]
    exact storeGet_delete_self _ _
  · intro t ht hfresh
    exact cleanup_removes st.store _ _ t hfresh ht

/-- Options with one atomic and one rollback operation, both succeeding. -/
def optsOne : SoftDeleteOptions :=
  { undoTimeoutMs := 5000
    includeUndoToken := true
    atomicOperations := [okOp 2]
    rollbackOperations := [okOp 3] }

/-- The token minted by the witness delete below. -/
def tok1 : String := generateUndoToken "product" "p1" 100 "r"

/-- The state after the witness delete below. -/
def st1 : MState :=
  (executeSoftDelete "product" "p1" (okVOp 1 7) optsOne 100 "r" st0).2

theorem undo_token_consumed_at_most_once_witness :
    (executeSoftDelete "product" "p1" (okVOp 1 7) optsOne 100 "r" st0).1 =
      .ok { success := true
            message := "product deleted successfully"
            undo_token := some tok1
            undo_expires_at := some 5100 } ∧
    (executeUndo tok1 (okVOp 4 9) 5100 st1).1 =
      .ok { success := true
            message := "product restored successfully"
            restored_item := some 9 } ∧
    storeGet (executeUndo tok1 (okVOp 4 9) 5100 st1).2.store tok1 = none ∧
    (executeUndo tok1 (okVOp 5 9) 5100
        (executeUndo tok1 (okVOp 4 9) 5100 st1).2).1 =
      .error (JsError.appError "Invalid or expired undo token" 400) ∧
    storeGet (fireTimer st1 tok1).store tok1 = none ∧
    storeGet (cleanupExpiredTokens 6000 st1.store) tok1 = none := by
  have h := undo_token_consumed_at_most_once "product" "p1" "r" (okVOp 1 7)
    optsOne 100 st0 7 rfl rfl (by decide)
  have h2 := h.2.1 (okVOp 4 9) 5100 9 (by decide) rfl (by decide)
  exact ⟨h.1, h2.1, h2.2.1, h2.2.2 (okVOp 5 9) 5100, h.2.2.1,
         h.2.2.2 6000 (by decide) rfl⟩

/-! ### C3 -/

/-- C3: if `deleteOperation` (or any `atomicOperations` entry) throws during
`executeSoftDelete`, the caller-supplied rollback operations run in reverse
order (every entry when none of them throws — best effort otherwise), the
token store and timers are unchanged (no undo token is created), and the
original error propagates regardless of rollback outcomes: unchanged if it is
a structured `AppError`, otherwise wrapped as "Failed to delete entityType"
with status 500. -/
theorem softDelete_failure_rolls_back
    (entityType entityId rnd : String) (dOp : VOp) (opts : SoftDeleteOptions)
    (now : Millis) (st : MState) :
    (∀ e, dOp.result = .error e →
       (executeSoftDelete entityType entityId dOp opts now rnd st).1 =
         .error (wrapDeleteError entityType e) ∧
       (executeSoftDelete entityType entityId dOp opts now rnd st).2.store
         = st.store ∧
       (executeSoftDelete entityType entityId dOp opts now rnd st).2.timers
         = st.timers ∧
       ((∀ op ∈ opts.rollbackOperations, opOk op = true) →
          (executeSoftDelete entityType entityId dOp opts now rnd st).2.trace =
            st.trace ++ dOp.id :: opts.rollbackOperations.reverse.map Op.id)) ∧
    (∀ res pre bad post e, dOp.result = .ok res →
       opts.atomicOperations = pre ++ bad :: post →
       (∀ op ∈ pre, opOk op = true) → bad.result = .error e →
       (executeSoftDelete entityType entityId dOp opts now rnd st).1 =
         .error (wrapDeleteError entityType e) ∧
       (executeSoftDelete entityType entityId dOp opts now rnd st).2.store
         = st.store ∧
       (executeSoftDelete entityType entityId dOp opts now rnd st).2.timers
         = st.timers ∧
       ((∀ op ∈ opts.rollbackOperations, opOk op = true) →
          (executeSoftDelete entityType entityId dOp opts now rnd st).2.trace =
            st.trace ++ dOp.id :: (pre.map Op.id ++ bad.id ::
              opts.rollbackOperations.reverse.map Op.id))) ∧
    (∀ m s, wrapDeleteError entityType (.appError m s) = .appError m s) ∧
    (∀ i, wrapDeleteError entityType (.other i) =
       .appError ("Failed to delete " ++ entityType) 500) := by
  refine ⟨?_, ?_, fun m s => rfl, fun i => rfl⟩
  · intro e he
    rw [executeSoftDelete_deleteFail entityType entityId dOp opts now rnd st
      e he]
    refine ⟨rfl, rfl, rfl, ?_⟩
    intro hroll
    have hrev : ∀ op ∈ opts.rollbackOperations.reverse, opOk op = true := by
      intro op hop
      exact hroll op (List.mem_reverse.mp hop)
    rw [runOps_all_ok _ _ hrev]
    simp
  · intro res pre bad post e hd hsplit hpre hbad
    rw [executeSoftDelete_atomicFail entityType entityId dOp opts now rnd st
      res pre bad post e hd hsplit hpre hbad]
    refine ⟨rfl, rfl, rfl, ?_⟩
    intro hroll
    have hrev : ∀ op ∈ opts.rollbackOperations.reverse, opOk op = true := by
      intro op hop
      exact hroll op (List.mem_reverse.mp hop)
    rw [runOps_all_ok _ _ hrev]
    simp

/-- Options with two rollback operations, both succeeding (ids 3 then 4). -/
def optsTwoRollback : SoftDeleteOptions :=
  { undoTimeoutMs := 5000
    includeUndoToken := true
    atomicOperations := [okOp 2, badOp 6]
    rollbackOperations := [okOp 3, okOp 4] }

theorem softDelete_failure_rolls_back_witness :
    (executeSoftDelete "product" "p1" (badVOp 1) optsTwoRollback 100 "r"
        st0).1 = .error (JsError.appError "Failed to delete product" 500) ∧
    (executeSoftDelete "product" "p1" (badVOp 1) optsTwoRollback 100 "r"
        st0).2.store = st0.store ∧
    (executeSoftDelete "product" "p1" (badVOp 1) optsTwoRollback 100 "r"
        st0).2.trace = [1, 4, 3] ∧
    (executeSoftDelete "product" "p1" (okVOp 1 7) optsTwoRollback 100 "r"
        st0).1 = .error (JsError.appError "Failed to delete product" 500) ∧
    (executeSoftDelete "product" "p1" (okVOp 1 7) optsTwoRollback 100 "r"
        st0).2.trace = [1, 2, 6, 4, 3] := by
  have hA := (softDelete_failure_rolls_back "product" "p1" "r" (badVOp 1)
    optsTwoRollback 100 st0).1 (.other 1) rfl
  have hB := (softDelete_failure_rolls_back "product" "p1" "r" (okVOp 1 7)
    optsTwoRollback 100 st0).2.1 7 [okOp 2] (badOp 6) [] (.other 6) rfl rfl
    (by decide) rfl
  exact ⟨hA.1, hA.2.1, hA.2.2.2 (by decide), hB.1, hB.2.2.2 (by decide)⟩

/-! ### C7 -/

/-- C7: operation ordering is fixed and asymmetric.  In `executeSoftDelete`
and `executeBulkSoftDelete` the atomic operations run strictly after the main
delete operation and strictly in listed order; the rollback operations of a
call run in reverse of listed order when the delete path fails (main delete
throwing, or an atomic operation throwing), but in original forward order —
after the restore operation — when `executeUndo` or `executeBulkUndo`
succeeds. -/
theorem operation_ordering :
    (∀ entityType entityId rnd dOp opts now st res,
       (dOp : VOp).result = .ok res →
       (∀ op ∈ (opts : SoftDeleteOptions).atomicOperations, opOk op = true) →
       (executeSoftDelete entityType entityId dOp opts now rnd st).2.trace =
         st.trace ++ dOp.id :: opts.atomicOperations.map Op.id) ∧
    (∀ entityType ids rnd dOp opts now st res, ids ≠ [] →
       (dOp : VOp).result = .ok res →
       (∀ op ∈ (opts : SoftDeleteOptions).atomicOperations, opOk op = true) →
       (executeBulkSoftDelete entityType ids dOp opts now rnd st).2.trace =
         st.trace ++ dOp.id :: opts.atomicOperations.map Op.id) ∧
    (∀ entityType entityId rnd dOp opts now st e,
       (dOp : VOp).result = .error e →
       (∀ op ∈ (opts : SoftDeleteOptions).rollbackOperations, opOk op = true) →
       (executeSoftDelete entityType entityId dOp opts now rnd st).2.trace =
         st.trace ++ dOp.id :: opts.rollbackOperations.reverse.map Op.id) ∧
    (∀ entityType entityId rnd dOp opts now st res pre bad post e,
       (dOp : VOp).result = .ok res →
       (opts : SoftDeleteOptions).atomicOperations = pre ++ bad :: post →
       (∀ op ∈ pre, opOk op = true) → bad.result = .error e →
       (∀ op ∈ opts.rollbackOperations, opOk op = true) →
       (executeSoftDelete entityType entityId dOp opts now rnd st).2.trace =
         st.trace ++ dOp.id :: (pre.map Op.id ++ bad.id ::
           opts.rollbackOperations.reverse.map Op.id)) ∧
    (∀ tok r t st td v, storeGet (st : MState).store tok = some td →
       ¬ (td : TokenData).expires_at < t → (r : VOp).result = .ok v →
       (∀ op ∈ td.rollback_operations, opOk op = true) →
       (executeUndo tok r t st).2.trace =
         st.trace ++ r.id :: td.rollback_operations.map Op.id) ∧
    (∀ tok r t st td v, storeGet (st : MState).store tok = some td →
       ¬ (td : TokenData).expires_at < t → td.metadata.is_bulk = true →
       (r : VOp).result = .ok v →
       (∀ op ∈ td.rollback_operations, opOk op = true) →
       (executeBulkUndo tok r t st).2.trace =
         st.trace ++ r.id :: td.rollback_operations.map Op.id) := by
  refine ⟨?_, ?_, ?_, ?_, ?_, ?_⟩
  · intro entityType entityId rnd dOp opts now st res hd hatom
    by_cases hinc : opts.includeUndoToken
    · rw [executeSoftDelete_success entityType entityId dOp opts now rnd st
        res hd hinc hatom]
    · unfold executeSoftDelete
      rw [hd, runOps_all_ok _ _ hatom]
      simp [hinc]
  · intro entityType ids rnd dOp opts now st res hids hd hatom
    have hlen : ¬ ids.length = 0 := by
      simpa [List.length_eq_zero] using hids
    by_cases hinc : opts.includeUndoToken
    · rw [executeBulkSoftDelete_success entityType ids dOp opts now rnd st
        res hids hd hinc hatom]
    · unfold executeBulkSoftDelete
      rw [if_neg hlen, hd, runOps_all_ok _ _ hatom]
      simp [hinc]
  · intro entityType entityId rnd dOp opts now st e he hroll
    rw [executeSoftDelete_deleteFail entityType entityId dOp opts now rnd st
      e he]
    have hrev : ∀ op ∈ opts.rollbackOperations.reverse, opOk op = true :=
      fun op hop => hroll op (List.mem_reverse.mp hop)
    rw [runOps_all_ok _ _ hrev]
    simp
  · intro entityType entityId rnd dOp opts now st res pre bad post e hd hsplit
      hpre hbad hroll
    rw [executeSoftDelete_atomicFail entityType entityId dOp opts now rnd st
      res pre bad post e hd hsplit hpre hbad]
    have hrev : ∀ op ∈ opts.rollbackOperations.reverse, opOk op = true :=
      fun op hop => hroll op (List.mem_reverse.mp hop)
    rw [runOps_all_ok _ _ hrev]
    simp
  · intro tok r t st td v hget hexp hr hroll
    rw [executeUndo_success tok r t st td v hget hexp hr hroll]
  · intro tok r t st td v hget hexp hb hr hroll
    rw [executeBulkUndo_success tok r t st td v hget hexp hb hr hroll]

/-- A single-path token entry with two rollback operations. -/
def tdFwd : TokenData :=
  { expires_at := 10, rollback_operations := [okOp 3, okOp 4],
    metadata := mdSingle }

/-- A state holding `tdFwd` under key `"t"`. -/
def stFwd : MState := { store := [("t", tdFwd)], trace := [], timers := [] }

/-- A bulk token entry with two rollback operations. -/
def tdFwdB : TokenData :=
  { expires_at := 10, rollback_operations := [okOp 3, okOp 4],
    metadata := mdBulk }

/-- A state holding `tdFwdB` under key `"t"`. -/
def stFwdB : MState := { store := [("t", tdFwdB)], trace := [], timers := [] }

theorem operation_ordering_witness :
    (executeSoftDelete "product" "p1" (okVOp 1 7) optsOne 100 "r"
        st0).2.trace = [1, 2] ∧
    (executeBulkSoftDelete "product" ["a", "b"] (okVOp 1 7) optsOne 100 "r"
        st0).2.trace = [1, 2] ∧
    (executeSoftDelete "product" "p1" (badVOp 1) optsTwoRollback 100 "r"
        st0).2.trace = [1, 4, 3] ∧
    (executeSoftDelete "product" "p1" (okVOp 1 7) optsTwoRollback 100 "r"
        st0).2.trace = [1, 2, 6, 4, 3] ∧
    (executeUndo "t" (okVOp 9 1) 5 stFwd).2.trace = [9, 3, 4] ∧
    (executeBulkUndo "t" (okVOp 9 1) 5 stFwdB).2.trace = [9, 3, 4] := by
  have h := operation_ordering
  exact ⟨h.1 "product" "p1" "r" (okVOp 1 7) optsOne 100 st0 7 rfl (by decide),
         h.2.1 "product" ["a", "b"] "r" (okVOp 1 7) optsOne 100 st0 7
           (by decide) rfl (by decide),
         h.2.2.1 "product" "p1" "r" (badVOp 1) optsTwoRollback 100 st0
           (.other 1) rfl (by decide),
         h.2.2.2.1 "product" "p1" "r" (okVOp 1 7) optsTwoRollback 100 st0 7
           [okOp 2] (badOp 6) [] (.other 6) rfl rfl (by decide) rfl (by decide),
         h.2.2.2.2.1 "t" (okVOp 9 1) 5 stFwd tdFwd 1 rfl (by decide) rfl
           (by decide),
         h.2.2.2.2.2 "t" (okVOp 9 1) 5 stFwdB tdFwdB 1 rfl (by decide) rfl rfl
           (by decide)⟩

/-! ### C1 -/

/-- The state after a concrete successful `executeBulkSoftDelete` of
`["a", "b"]`. -/
def stAfterBulk : MState :=
  (executeBulkSoftDelete "product" ["a", "b"] (okVOp 1 7) defaultOptions 100
    "r" st0).2

/-- The token minted by that bulk delete. -/
def bulkTok : String := generateUndoToken "product" "bulk_2" 100 "r"

/-- C1 counterexample: `executeUndo` called with a token minted by
`executeBulkSoftDelete` does not fail as "not a bulk token" — the source has
no `is_bulk` check on the single-undo path.  On a concrete bulk token it
returns success and invokes the restore operation (trace `[1, 2]`: bulk
delete op 1, then restore op 2). -/
theorem single_undo_accepts_bulk_token_counterexample :
    getUndoTokenMetadata stAfterBulk.store bulkTok =
      some { entity_type := "product"
             entity_id := none
             entity_ids := some ["a", "b"]
             deleted_at := 100
             main_result := 7
             is_bulk := true } ∧
    (executeUndo bulkTok (okVOp 2 9) 200 stAfterBulk).1 =
      .ok { success := true
            message := "product restored successfully"
            restored_item := some 9 } ∧
    (executeUndo bulkTok (okVOp 2 9) 200 stAfterBulk).2.trace = [1, 2] := by
  exact ⟨rfl, rfl, rfl⟩

/-- C1 amended: token cross-use is rejected only in the bulk direction.
`executeBulkUndo` called with a present, unexpired token whose metadata has
`is_bulk = false` (a token minted by `executeSoftDelete`) fails as "Token is
not for bulk operation" with the state unchanged — before the restore
operation is invoked.  `executeUndo` performs no `is_bulk` check: with a
present, unexpired token whose metadata has `is_bulk = true` (a token minted
by `executeBulkSoftDelete`) it proceeds to invoke the restore operation. -/
theorem token_cross_use_guard_bulk_only :
    (∀ tok r t st td, storeGet (st : MState).store tok = some td →
       ¬ (td : TokenData).expires_at < t → td.metadata.is_bulk = false →
       executeBulkUndo tok r t st =
         (.error (JsError.appError "Token is not for bulk operation" 400),
          st)) ∧
    (∀ tok r t st td, storeGet (st : MState).store tok = some td →
       ¬ (td : TokenData).expires_at < t → td.metadata.is_bulk = true →
       ∃ rest, (executeUndo tok r t st).2.trace
         = st.trace ++ r.id :: rest) := by
  constructor
  · intro tok r t st td hget hexp hb
    exact executeBulkUndo_notBulk tok r t st td hget hexp hb
  · intro tok r t st td hget hexp _
    exact executeUndo_restore_invoked tok r t st td hget hexp

theorem token_cross_use_guard_bulk_only_witness :
    executeBulkUndo "t" (okVOp 9 1) 5 stFwd =
      (.error (JsError.appError "Token is not for bulk operation" 400),
       stFwd) ∧
    (∃ rest, (executeUndo "t" (okVOp 9 1) 5 stFwdB).2.trace
       = stFwdB.trace ++ 9 :: rest) := by
  have h := token_cross_use_guard_bulk_only
  exact ⟨h.1 "t" (okVOp 9 1) 5 stFwd tdFwd rfl (by decide) rfl,
         h.2 "t" (okVOp 9 1) 5 stFwdB tdFwdB rfl (by decide) rfl⟩

/-! ### C4 -/

/-- A token entry whose only rollback operation throws. -/
def tdBadRoll : TokenData :=
  { expires_at := 10, rollback_operations := [badOp 3], metadata := mdSingle }

/-- A state holding `tdBadRoll` under key `"t"`. -/
def stBadRoll : MState :=
  { store := [("t", tdBadRoll)], trace := [], timers := [] }

/-- C4 counterexample: the token is not deleted unconditionally after a
successful `restoreOperation`, and removal is not the first side-effecting
step of undo.  Concretely: the restore operation (id 9) succeeds and is
invoked, the stored rollback operation (id 3) then throws, and `executeUndo`
returns the wrapped 500 fault with the token still present in the store. -/
theorem undo_keeps_token_after_successful_restore_counterexample :
    (okVOp 9 1).result = .ok 1 ∧
    (executeUndo "t" (okVOp 9 1) 5 stBadRoll).1 =
      .error (JsError.appError "Failed to restore item" 500) ∧
    (executeUndo "t" (okVOp 9 1) 5 stBadRoll).2.trace = [9, 3] ∧
    storeGet (executeUndo "t" (okVOp 9 1) 5 stBadRoll).2.store "t" =
      some tdBadRoll := by
  exact ⟨rfl, rfl, rfl, rfl⟩

/-- C4 amended: in `executeUndo` the token is deleted from the store after
the restore operation and all stored rollback operations complete —
removal is the final step of a successful undo, not the first; if the
restore operation throws, or a stored rollback operation throws after a
successful restore, the token is not removed (so a retry within the window
is possible) and the error propagates — unchanged for structured
`AppError`s, otherwise wrapped as "Failed to restore item" with status
500. -/
theorem undo_token_removed_only_after_full_success :
    (∀ tok r t st td v, storeGet (st : MState).store tok = some td →
       ¬ (td : TokenData).expires_at < t → (r : VOp).result = .ok v →
       (∀ op ∈ td.rollback_operations, opOk op = true) →
       (executeUndo tok r t st).1 =
         .ok { success := true
               message := td.metadata.entity_type ++ " restored successfully"
               restored_item := some v } ∧
       (executeUndo tok r t st).2.store = storeDelete st.store tok) ∧
    (∀ tok r t st td e, storeGet (st : MState).store tok = some td →
       ¬ (td : TokenData).expires_at < t → (r : VOp).result = .error e →
       executeUndo tok r t st =
         (.error (wrapRestoreError e),
          { st with trace := st.trace ++ [r.id] })) ∧
    (∀ tok r t st td v pr bad post e,
       storeGet (st : MState).store tok = some td →
       ¬ (td : TokenData).expires_at < t → (r : VOp).result = .ok v →
       td.rollback_operations = pr ++ bad :: post →
       (∀ op ∈ pr, opOk op = true) → bad.result = .error e →
       (executeUndo tok r t st).1 = .error (wrapRestoreError e) ∧
       (executeUndo tok r t st).2.store = st.store) ∧
    (∀ m s, wrapRestoreError (.appError m s) = .appError m s) ∧
    (∀ i, wrapRestoreError (.other i) =
       .appError "Failed to restore item" 500) := by
  refine ⟨?_, ?_, ?_, fun m s => rfl, fun i => rfl⟩
  · intro tok r t st td v hget hexp hr hroll
    rw [executeUndo_success tok r t st td v hget hexp hr hroll]
    exact ⟨rfl, rfl⟩
  · intro tok r t st td e hget hexp hr
    exact executeUndo_restoreFail tok r t st td e hget hexp hr
  · intro tok r t st td v pr bad post e hget hexp hr hsplit hpr hbad
    rw [executeUndo_rollbackFail tok r t st td v pr bad post e hget hexp hr
      hsplit hpr hbad]
    exact ⟨rfl, rfl⟩

theorem undo_token_removed_only_after_full_success_witness :
    (executeUndo "t" (okVOp 9 1) 5 stFwd).2.store =
      storeDelete stFwd.store "t" ∧
    executeUndo "t" (badVOp 9) 5 stFwd =
      (.error (JsError.appError "Failed to restore item" 500),
       { stFwd with trace := stFwd.trace ++ [9] }) ∧
    (executeUndo "t" (okVOp 9 1) 5 stBadRoll).2.store = stBadRoll.store := by
  have h := undo_token_removed_only_after_full_success
  exact ⟨(h.1 "t" (okVOp 9 1) 5 stFwd tdFwd 1 rfl (by decide) rfl
           (by decide)).2,
         h.2.1 "t" (badVOp 9) 5 stFwd tdFwd (.other 9) rfl (by decide) rfl,
         (h.2.2.1 "t" (okVOp 9 1) 5 stBadRoll tdBadRoll 1 [] (badOp 3) []
           (.other 3) rfl (by decide) rfl rfl (by decide) rfl).2⟩
